import Mathlib

/-!
Verification of the barcode demultiplexing engine of
`scripts/unmaintained/barcodeDemulti.py`: the mismatch-tolerant sequence
comparator (`Index`), the four-way signature (`QuadrupelIndex`), the
first-match-wins router (`SampleSheet`), and the counting invariants of the
statistics report.  Sequences are embedded as `List Char`; the per-channel
hit dictionaries as insertion-ordered association lists, matching Python
dict semantics; the output files as the list of record pairs written to
each named sink during one processing step.
-/

namespace BarcodeDemulti

/-- A FASTQ record: identifier, nucleotide sequence and quality string. -/
structure FastqEntry where
  name : String
  seq : List Char
  quali : List Char
deriving DecidableEq

/-- One expected sequence with a mismatch budget and a hit dictionary,
embedding the Python class `Index`. -/
structure Index where
  sequence : List Char
  mismatches : Nat
  hits : List (List Char × Nat)
deriving DecidableEq

/-- The positionwise mismatch test of `Index.match`: a pair (query char,
pattern char) counts when the pattern char is not `N` and differs. -/
def mismatchPred : Char × Char → Bool :=
  fun st => st.2 != 'N' && st.1 != st.2

/-- `Index.match`: a `-` pattern matches anything; otherwise count
positionwise mismatches over `zip(querySeq, self.sequence)` (which
truncates at the shorter operand) and compare with the budget. -/
def Index.matchQuery (idx : Index) (querySeq : List Char) : Bool :=
  if idx.sequence = ['-'] then true
  else decide ((List.zip querySeq idx.sequence).countP mismatchPred ≤ idx.mismatches)

/-- Increment the count stored under key `k`, inserting it at the end with
count 1 when absent — Python dict update in insertion order. -/
def bumpKey : List (List Char × Nat) → List Char → List (List Char × Nat)
  | [], k => [(k, 1)]
  | (k', v) :: rest, k =>
      if k' = k then (k', v + 1) :: rest else (k', v) :: bumpKey rest k

/-- `Index.recordHit`: clip the observed sequence to the pattern length and
bump its count in the hit dictionary. -/
def Index.recordHit (idx : Index) (seq : List Char) : Index :=
  ⟨idx.sequence, idx.mismatches, bumpKey idx.hits (seq.take idx.sequence.length)⟩

/-- The four per-channel signatures of one sample (`QuadrupelIndex`). -/
structure QuadrupelIndex where
  i1 : Index
  i2 : Index
  bc1 : Index
  bc2 : Index
deriving DecidableEq

/-- `QuadrupelIndex.__init__`: four fresh `Index` objects sharing the
global mismatch budget, with empty hit dictionaries. -/
def QuadrupelIndex.mkQ (i1 i2 bc1 bc2 : List Char) (mm : Nat) : QuadrupelIndex :=
  ⟨⟨i1, mm, []⟩, ⟨i2, mm, []⟩, ⟨bc1, mm, []⟩, ⟨bc2, mm, []⟩⟩

/-- `QuadrupelIndex.match`: when all four channels match, record a hit on
each of them and report success; otherwise leave all state unchanged. -/
def QuadrupelIndex.matchQuad (q : QuadrupelIndex) (r1 r2 i1 i2 : List Char) :
    Bool × QuadrupelIndex :=
  if q.i1.matchQuery i1 && q.i2.matchQuery i2 && q.bc1.matchQuery r1 && q.bc2.matchQuery r2 then
    (true, ⟨q.i1.recordHit i1, q.i2.recordHit i2, q.bc1.recordHit r1, q.bc2.recordHit r2⟩)
  else
    (false, q)

/-- Spec-side mismatch count, stated over positions as the specification
words it: the number of positions `i` below the pattern length where the
pattern character is not `N` and differs from the query character. -/
def specMismatchCount (pattern query : List Char) : Nat :=
  (List.range pattern.length).countP
    (fun i => pattern.getD i ' ' != 'N' && query.getD i ' ' != pattern.getD i ' ')

/-- The leading length clipped from a read for a barcode pattern:
`0 if queryBC == '-' else len(queryBC)`. -/
def clipLen (pat : List Char) : Nat :=
  if pat = ['-'] then 0 else pat.length

/-- Drop the first `n` characters of a record's sequence and quality, the
in-place trimming done in `SampleSheet.process`. -/
def trimEntry (e : FastqEntry) (n : Nat) : FastqEntry :=
  ⟨e.name, e.seq.drop n, e.quali.drop n⟩

/-- The router state: samples in sheet order (Python's insertion-ordered
dict), the undetermined flag and counter. -/
structure SampleSheet where
  samples : List (String × QuadrupelIndex)
  withUndetermined : Bool
  undetermined : Nat
deriving DecidableEq

/-- The sample loop of `SampleSheet.process`: try samples in sheet order;
on the first four-way match, trim both reads by the matched sample's
barcode lengths and emit to that sample; later samples are not tested. -/
def processSamples :
    List (String × QuadrupelIndex) → FastqEntry → FastqEntry → FastqEntry → FastqEntry →
      List (String × QuadrupelIndex) × Option (String × FastqEntry × FastqEntry)
  | [], _, _, _, _ => ([], none)
  | (nm, q) :: rest, r1, r2, i1, i2 =>
    let res := q.matchQuad r1.seq r2.seq i1.seq i2.seq
    if res.1 then
      ((nm, res.2) :: rest,
        some (nm, trimEntry r1 (clipLen res.2.bc1.sequence),
          trimEntry r2 (clipLen res.2.bc2.sequence)))
    else
      let pr := processSamples rest r1 r2 i1 i2
      ((nm, res.2) :: pr.1, pr.2)

/-- `SampleSheet.process`: route one quadruple.  The second component is
the list of (sink name, record pair) writes performed during this call. -/
def SampleSheet.process (sh : SampleSheet) (r1 r2 i1 i2 : FastqEntry) :
    SampleSheet × List (String × FastqEntry × FastqEntry) :=
  let pr := processSamples sh.samples r1 r2 i1 i2
  match pr.2 with
  | some out => (⟨pr.1, sh.withUndetermined, sh.undetermined⟩, [out])
  | none =>
    if sh.withUndetermined then
      (⟨pr.1, sh.withUndetermined, sh.undetermined + 1⟩, [("Undetermined", r1, r2)])
    else
      (⟨pr.1, sh.withUndetermined, sh.undetermined + 1⟩, [])

/-- Legal sample-sheet characters: `letter in "ACTGN-"`. -/
def legalChar (c : Char) : Bool :=
  "ACTGN-".toList.contains c

/-- One parsed sample-sheet line: `name index1 index2 barcode1 barcode2`. -/
structure SheetRow where
  name : String
  i1 : List Char
  i2 : List Char
  bc1 : List Char
  bc2 : List Char
deriving DecidableEq

/-- The construction loop of `SampleSheet.__init__` over parsed rows: each
row's four sequence fields are validated character by character (the
Python assert aborts construction on the first illegal character, so no
sheet is produced), then the sample's `QuadrupelIndex` is appended. -/
def buildSamples : List SheetRow → Nat → Option (List (String × QuadrupelIndex))
  | [], _ => some []
  | r :: rest, mm =>
    if (r.i1 ++ r.i2 ++ r.bc1 ++ r.bc2).all legalChar then
      (buildSamples rest mm).map
        (fun l => (r.name, QuadrupelIndex.mkQ r.i1 r.i2 r.bc1 r.bc2 mm) :: l)
    else none

/-- Sum of the occurrence counts of a hit dictionary
(`sum(hits.values())`). -/
def sumVals (hits : List (List Char × Nat)) : Nat :=
  (hits.map Prod.snd).sum

/-- A sample's accepted count as computed by `reportStats`: the sum of its
index-1 hit-table occurrence counts. -/
def acceptedCount (q : QuadrupelIndex) : Nat :=
  sumVals q.i1.hits

/-- The run total of `reportStats`: the sum of all samples' accepted
counts. -/
def acceptedSum (ss : List (String × QuadrupelIndex)) : Nat :=
  (ss.map (fun p => acceptedCount p.2)).sum

/-- Lockstep consumption of the four record streams (`zip` of four
iterators): stops at the shortest stream. -/
def zip4 : List FastqEntry → List FastqEntry → List FastqEntry → List FastqEntry →
    List (FastqEntry × FastqEntry × FastqEntry × FastqEntry)
  | a :: as, b :: bs, c :: cs, d :: ds => (a, b, c, d) :: zip4 as bs cs ds
  | _, _, _, _ => []

/-- The main loop: process each quadruple; after processing, increment the
1-based counter `nr` and stop when it exceeds the optional `endAfter`
cap. -/
def runLoop : SampleSheet → List (FastqEntry × FastqEntry × FastqEntry × FastqEntry) →
    Int → Option Int → SampleSheet
  | sh, [], _, _ => sh
  | sh, qd :: rest, nr, endAfter =>
    let sh' := (sh.process qd.1 qd.2.1 qd.2.2.1 qd.2.2.2).1
    match endAfter with
    | some k => if nr + 1 > k then sh' else runLoop sh' rest (nr + 1) (some k)
    | none => runLoop sh' rest (nr + 1) none

/-- The number of `process` calls the main loop makes on a given quadruple
list, counter and cap. -/
def loopCount : List (FastqEntry × FastqEntry × FastqEntry × FastqEntry) →
    Int → Option Int → Nat
  | [], _, _ => 0
  | _ :: rest, nr, endAfter =>
    match endAfter with
    | some k => if nr + 1 > k then 1 else 1 + loopCount rest (nr + 1) (some k)
    | none => 1 + loopCount rest (nr + 1) none

/-- The whole run: lockstep-zip the four streams and loop from `nr = 1`. -/
def mainRun (sh : SampleSheet) (s1 s2 s3 s4 : List FastqEntry)
    (endAfter : Option Int) : SampleSheet :=
  runLoop sh (zip4 s1 s2 s3 s4) 1 endAfter

/-- The number of record quadruples a run processes, respecting both the
shortest-stream truncation and the `endAfter` cap. -/
def totalProcessed (s1 s2 s3 s4 : List FastqEntry) (endAfter : Option Int) : Nat :=
  loopCount (zip4 s1 s2 s3 s4) 1 endAfter

lemma zip_countP_eq (p q : List Char) (h : p.length ≤ q.length) :
    (List.zip q p).countP mismatchPred = specMismatchCount p q := by
  induction p generalizing q with
  | nil => simp [specMismatchCount]
  | cons c p ih =>
    cases q with
    | nil => simp at h
    | cons d q =>
      have hlen : p.length ≤ q.length := Nat.le_of_succ_le_succ (by simpa using h)
      simp only [List.zip_cons_cons, List.countP_cons, specMismatchCount, List.length_cons,
        List.range_succ_eq_map, List.countP_map]
      rw [ih q hlen]
      have hfun :
          ((fun i => (c :: p).getD i ' ' != 'N' && (d :: q).getD i ' ' != (c :: p).getD i ' ')
              ∘ Nat.succ)
            = fun i => p.getD i ' ' != 'N' && q.getD i ' ' != p.getD i ' ' := by
        funext i
        simp [Function.comp, List.getD]
      rw [hfun]
      simp [specMismatchCount, mismatchPred, List.getD]

lemma zip_trunc (q p : List Char) : List.zip q p = List.zip q (p.take q.length) := by
  induction q generalizing p with
  | nil => simp
  | cons a q ih =>
    cases p with
    | nil => simp
    | cons b p => simp [List.zip_cons_cons, ih p]

lemma recordHit_sequence (idx : Index) (s : List Char) :
    (idx.recordHit s).sequence = idx.sequence := rfl

lemma matchQuad_eq_true (q : QuadrupelIndex) (r1 r2 i1 i2 : List Char)
    (hb : (q.i1.matchQuery i1 && q.i2.matchQuery i2
        && q.bc1.matchQuery r1 && q.bc2.matchQuery r2) = true) :
    q.matchQuad r1 r2 i1 i2
      = (true, ⟨q.i1.recordHit i1, q.i2.recordHit i2,
          q.bc1.recordHit r1, q.bc2.recordHit r2⟩) := by
  simp [QuadrupelIndex.matchQuad, hb]

lemma matchQuad_eq_false (q : QuadrupelIndex) (r1 r2 i1 i2 : List Char)
    (hb : (q.i1.matchQuery i1 && q.i2.matchQuery i2
        && q.bc1.matchQuery r1 && q.bc2.matchQuery r2) = false) :
    q.matchQuad r1 r2 i1 i2 = (false, q) := by
  simp [QuadrupelIndex.matchQuad, hb]

lemma matchQuad_fst_iff (q : QuadrupelIndex) (r1 r2 i1 i2 : List Char) :
    (q.matchQuad r1 r2 i1 i2).1 = true ↔
      (q.i1.matchQuery i1 = true ∧ q.i2.matchQuery i2 = true
        ∧ q.bc1.matchQuery r1 = true ∧ q.bc2.matchQuery r2 = true) := by
  cases hb : (q.i1.matchQuery i1 && q.i2.matchQuery i2
      && q.bc1.matchQuery r1 && q.bc2.matchQuery r2) with
  | true =>
    rw [matchQuad_eq_true q r1 r2 i1 i2 hb]
    simp only [Bool.and_eq_true] at hb
    exact iff_of_true rfl ⟨hb.1.1.1, hb.1.1.2, hb.1.2, hb.2⟩
  | false =>
    rw [matchQuad_eq_false q r1 r2 i1 i2 hb]
    constructor
    · intro h
      exact absurd h (by simp)
    · intro hcon
      have hc : (q.i1.matchQuery i1 && q.i2.matchQuery i2
          && q.bc1.matchQuery r1 && q.bc2.matchQuery r2) = true := by
        simp [hcon.1, hcon.2.1, hcon.2.2.1, hcon.2.2.2]
      rw [hc] at hb
      exact absurd hb (by simp)

lemma matchQuad_snd_of_false (q : QuadrupelIndex) (r1 r2 i1 i2 : List Char)
    (h : (q.matchQuad r1 r2 i1 i2).1 = false) :
    (q.matchQuad r1 r2 i1 i2).2 = q := by
  cases hb : (q.i1.matchQuery i1 && q.i2.matchQuery i2
      && q.bc1.matchQuery r1 && q.bc2.matchQuery r2) with
  | true =>
    rw [matchQuad_eq_true q r1 r2 i1 i2 hb] at h
    exact absurd h (by simp)
  | false =>
    rw [matchQuad_eq_false q r1 r2 i1 i2 hb]

lemma matchQuad_snd_of_true (q : QuadrupelIndex) (r1 r2 i1 i2 : List Char)
    (h : (q.matchQuad r1 r2 i1 i2).1 = true) :
    (q.matchQuad r1 r2 i1 i2).2
      = ⟨q.i1.recordHit i1, q.i2.recordHit i2, q.bc1.recordHit r1, q.bc2.recordHit r2⟩ := by
  cases hb : (q.i1.matchQuery i1 && q.i2.matchQuery i2
      && q.bc1.matchQuery r1 && q.bc2.matchQuery r2) with
  | true =>
    rw [matchQuad_eq_true q r1 r2 i1 i2 hb]
  | false =>
    rw [matchQuad_eq_false q r1 r2 i1 i2 hb] at h
    exact absurd h (by simp)

lemma matchQuad_bc1_sequence (q : QuadrupelIndex) (r1 r2 i1 i2 : List Char) :
    (q.matchQuad r1 r2 i1 i2).2.bc1.sequence = q.bc1.sequence := by
  cases hb : (q.i1.matchQuery i1 && q.i2.matchQuery i2
      && q.bc1.matchQuery r1 && q.bc2.matchQuery r2) with
  | true => rw [matchQuad_eq_true q r1 r2 i1 i2 hb]; rfl
  | false => rw [matchQuad_eq_false q r1 r2 i1 i2 hb]

lemma matchQuad_bc2_sequence (q : QuadrupelIndex) (r1 r2 i1 i2 : List Char) :
    (q.matchQuad r1 r2 i1 i2).2.bc2.sequence = q.bc2.sequence := by
  cases hb : (q.i1.matchQuery i1 && q.i2.matchQuery i2
      && q.bc1.matchQuery r1 && q.bc2.matchQuery r2) with
  | true => rw [matchQuad_eq_true q r1 r2 i1 i2 hb]; rfl
  | false => rw [matchQuad_eq_false q r1 r2 i1 i2 hb]

lemma processSamples_first (pre post : List (String × QuadrupelIndex)) (nm : String)
    (q : QuadrupelIndex) (r1 r2 i1 i2 : FastqEntry)
    (hpre : ∀ p ∈ pre, (p.2.matchQuad r1.seq r2.seq i1.seq i2.seq).1 = false)
    (hq : (q.matchQuad r1.seq r2.seq i1.seq i2.seq).1 = true) :
    processSamples (pre ++ (nm, q) :: post) r1 r2 i1 i2 =
      (pre ++ (nm, (q.matchQuad r1.seq r2.seq i1.seq i2.seq).2) :: post,
        some (nm, trimEntry r1 (clipLen q.bc1.sequence),
          trimEntry r2 (clipLen q.bc2.sequence))) := by
  induction pre with
  | nil =>
    simp only [List.nil_append]
    unfold processSamples
    simp [hq, matchQuad_bc1_sequence, matchQuad_bc2_sequence]
  | cons p pre ih =>
    obtain ⟨pn, pq⟩ := p
    have hp := hpre (pn, pq) (List.mem_cons_self _ _)
    have ih' := ih (fun x hx => hpre x (List.mem_cons_of_mem _ hx))
    simp only [List.cons_append]
    unfold processSamples
    simp [hp, matchQuad_snd_of_false pq _ _ _ _ hp, ih']

lemma processSamples_all_false (ss : List (String × QuadrupelIndex))
    (r1 r2 i1 i2 : FastqEntry)
    (hall : ∀ p ∈ ss, (p.2.matchQuad r1.seq r2.seq i1.seq i2.seq).1 = false) :
    processSamples ss r1 r2 i1 i2 = (ss, none) := by
  induction ss with
  | nil => rfl
  | cons p rest ih =>
    obtain ⟨pn, pq⟩ := p
    have hp := hall (pn, pq) (List.mem_cons_self _ _)
    have ih' := ih (fun x hx => hall x (List.mem_cons_of_mem _ hx))
    unfold processSamples
    simp [hp, matchQuad_snd_of_false pq _ _ _ _ hp, ih']

/-- C1: for a non-`-` pattern and a query at least pattern-length long,
`match` succeeds iff the number of positions where the pattern character is
not `N` and differs from the query character is at most the budget; a query
with exactly budget-many such mismatches matches and one with budget+1 does
not. -/
theorem spec_C1 (idx : Index) (query : List Char)
    (hpat : idx.sequence ≠ ['-']) (hlen : idx.sequence.length ≤ query.length) :
    (idx.matchQuery query = true ↔
      specMismatchCount idx.sequence query ≤ idx.mismatches)
    ∧ (specMismatchCount idx.sequence query = idx.mismatches →
        idx.matchQuery query = true)
    ∧ (specMismatchCount idx.sequence query = idx.mismatches + 1 →
        idx.matchQuery query = false) := by
  have h : idx.matchQuery query = true ↔
      specMismatchCount idx.sequence query ≤ idx.mismatches := by
    unfold Index.matchQuery
    rw [if_neg hpat, zip_countP_eq idx.sequence query hlen]
    exact decide_eq_true_iff
  refine ⟨h, fun he => h.mpr (he ▸ Nat.le_refl _), fun he => ?_⟩
  rw [Bool.eq_false_iff]
  intro htrue
  have := h.mp htrue
  omega

theorem spec_C1_witness :
    ((⟨['A','C','G','N'], 1, []⟩ : Index).sequence ≠ ['-'])
    ∧ (⟨['A','C','G','N'], 1, []⟩ : Index).sequence.length
        ≤ (['T','C','G','T','T'] : List Char).length
    ∧ (((⟨['A','C','G','N'], 1, []⟩ : Index).matchQuery ['T','C','G','T','T'] = true ↔
          specMismatchCount (⟨['A','C','G','N'], 1, []⟩ : Index).sequence ['T','C','G','T','T']
            ≤ (⟨['A','C','G','N'], 1, []⟩ : Index).mismatches)
        ∧ (specMismatchCount (⟨['A','C','G','N'], 1, []⟩ : Index).sequence ['T','C','G','T','T']
              = (⟨['A','C','G','N'], 1, []⟩ : Index).mismatches →
            (⟨['A','C','G','N'], 1, []⟩ : Index).matchQuery ['T','C','G','T','T'] = true)
        ∧ (specMismatchCount (⟨['A','C','G','N'], 1, []⟩ : Index).sequence ['T','C','G','T','T']
              = (⟨['A','C','G','N'], 1, []⟩ : Index).mismatches + 1 →
            (⟨['A','C','G','N'], 1, []⟩ : Index).matchQuery ['T','C','G','T','T'] = false)) :=
  ⟨by decide, by decide, spec_C1 _ _ (by decide) (by decide)⟩

/-- C10: for a query strictly shorter than a non-`-` pattern, `match` is
total: the comparison truncates to the query's length, so the query matches
iff its mismatches against the pattern prefix of its own length are within
budget, and the empty query always matches. -/
theorem spec_C10 (idx : Index) (query : List Char)
    (_hshort : query.length < idx.sequence.length) :
    (idx.matchQuery query = true ↔
      (idx.sequence = ['-'] ∨
        specMismatchCount (idx.sequence.take query.length) query ≤ idx.mismatches))
    ∧ idx.matchQuery [] = true := by
  constructor
  · by_cases hpat : idx.sequence = ['-']
    · simp [Index.matchQuery, hpat]
    · unfold Index.matchQuery
      rw [if_neg hpat, zip_trunc,
        zip_countP_eq (idx.sequence.take query.length) query (by simp)]
      simp [hpat]
  · unfold Index.matchQuery
    split
    · rfl
    · simp

theorem spec_C10_witness :
    (['C'] : List Char).length < (⟨['A','A','A','A'], 1, []⟩ : Index).sequence.length
    ∧ (((⟨['A','A','A','A'], 1, []⟩ : Index).matchQuery ['C'] = true ↔
        ((⟨['A','A','A','A'], 1, []⟩ : Index).sequence = ['-'] ∨
          specMismatchCount
              ((⟨['A','A','A','A'], 1, []⟩ : Index).sequence.take (['C'] : List Char).length)
              ['C']
            ≤ (⟨['A','A','A','A'], 1, []⟩ : Index).mismatches))
      ∧ (⟨['A','A','A','A'], 1, []⟩ : Index).matchQuery [] = true) :=
  ⟨by decide, spec_C10 _ _ (by decide)⟩

/-- C5 (corrected): a `-` pattern matches every query, but `recordHit`
clips the query to the pattern's length, which for `-` is 1, so the hit key
is the query's first character — length 1 whenever the query is nonempty,
empty only for the empty query. -/
theorem spec_C5_amended (idx : Index) (hpat : idx.sequence = ['-']) (query : List Char) :
    idx.matchQuery query = true
    ∧ (idx.recordHit query).hits = bumpKey idx.hits (query.take 1)
    ∧ (query ≠ [] → (query.take 1).length = 1) := by
  refine ⟨by simp [Index.matchQuery, hpat], by simp [Index.recordHit, hpat], ?_⟩
  intro hq
  cases query with
  | nil => exact absurd rfl hq
  | cons a l => simp

theorem spec_C5_amended_witness :
    (⟨['-'], 1, []⟩ : Index).sequence = ['-']
    ∧ ((⟨['-'], 1, []⟩ : Index).matchQuery ['A','C'] = true
      ∧ ((⟨['-'], 1, []⟩ : Index).recordHit ['A','C']).hits
          = bumpKey (⟨['-'], 1, []⟩ : Index).hits ((['A','C'] : List Char).take 1)
      ∧ ((['A','C'] : List Char) ≠ [] → ((['A','C'] : List Char).take 1).length = 1)) :=
  ⟨by decide, spec_C5_amended _ (by decide) _⟩

/-- C5 counterexample: on a `-` pattern, recording a hit for query `AC`
stores the key `A` (the first character), not the empty string. -/
theorem spec_C5_cex :
    ((⟨['-'], 1, []⟩ : Index).recordHit ['A','C']).hits = [(['A'], 1)]
    ∧ ¬ (∀ k ∈ (((⟨['-'], 1, []⟩ : Index).recordHit ['A','C']).hits.map Prod.fst),
          k = ([] : List Char)) := by
  decide

/-- C6: the four hit tables change only on a full four-way match, in which
case `recordHit` runs on all four channels with their observed sequences;
when any channel fails, the whole signature state is unchanged. -/
theorem spec_C6 (q : QuadrupelIndex) (r1 r2 i1 i2 : List Char) :
    ((q.matchQuad r1 r2 i1 i2).1 = true ↔
      (q.i1.matchQuery i1 = true ∧ q.i2.matchQuery i2 = true
        ∧ q.bc1.matchQuery r1 = true ∧ q.bc2.matchQuery r2 = true))
    ∧ ((q.matchQuad r1 r2 i1 i2).1 = false → (q.matchQuad r1 r2 i1 i2).2 = q)
    ∧ ((q.matchQuad r1 r2 i1 i2).1 = true →
        (q.matchQuad r1 r2 i1 i2).2
          = ⟨q.i1.recordHit i1, q.i2.recordHit i2,
              q.bc1.recordHit r1, q.bc2.recordHit r2⟩) :=
  ⟨matchQuad_fst_iff q r1 r2 i1 i2,
    matchQuad_snd_of_false q r1 r2 i1 i2,
    matchQuad_snd_of_true q r1 r2 i1 i2⟩

theorem spec_C6_witness :
    (((QuadrupelIndex.mkQ ['A'] ['C'] ['G'] ['T'] 0).matchQuad ['G'] ['T'] ['A'] ['C']).1 = true ↔
      ((QuadrupelIndex.mkQ ['A'] ['C'] ['G'] ['T'] 0).i1.matchQuery ['A'] = true
        ∧ (QuadrupelIndex.mkQ ['A'] ['C'] ['G'] ['T'] 0).i2.matchQuery ['C'] = true
        ∧ (QuadrupelIndex.mkQ ['A'] ['C'] ['G'] ['T'] 0).bc1.matchQuery ['G'] = true
        ∧ (QuadrupelIndex.mkQ ['A'] ['C'] ['G'] ['T'] 0).bc2.matchQuery ['T'] = true))
    ∧ (((QuadrupelIndex.mkQ ['A'] ['C'] ['G'] ['T'] 0).matchQuad ['G'] ['T'] ['A'] ['C']).1 = false →
        ((QuadrupelIndex.mkQ ['A'] ['C'] ['G'] ['T'] 0).matchQuad ['G'] ['T'] ['A'] ['C']).2
          = QuadrupelIndex.mkQ ['A'] ['C'] ['G'] ['T'] 0)
    ∧ (((QuadrupelIndex.mkQ ['A'] ['C'] ['G'] ['T'] 0).matchQuad ['G'] ['T'] ['A'] ['C']).1 = true →
        ((QuadrupelIndex.mkQ ['A'] ['C'] ['G'] ['T'] 0).matchQuad ['G'] ['T'] ['A'] ['C']).2
          = ⟨(QuadrupelIndex.mkQ ['A'] ['C'] ['G'] ['T'] 0).i1.recordHit ['A'],
              (QuadrupelIndex.mkQ ['A'] ['C'] ['G'] ['T'] 0).i2.recordHit ['C'],
              (QuadrupelIndex.mkQ ['A'] ['C'] ['G'] ['T'] 0).bc1.recordHit ['G'],
              (QuadrupelIndex.mkQ ['A'] ['C'] ['G'] ['T'] 0).bc2.recordHit ['T']⟩) :=
  spec_C6 (QuadrupelIndex.mkQ ['A'] ['C'] ['G'] ['T'] 0) ['G'] ['T'] ['A'] ['C']

/-- C2: when the first matching sample sits at some position in the sheet
(everything before it fails, and here at least one later sample also
matches), `process` writes the pair exactly once, to that earliest sample's
sink, and never touches the samples after it. -/
theorem spec_C2 (sh : SampleSheet) (pre post : List (String × QuadrupelIndex))
    (nm : String) (q : QuadrupelIndex) (r1 r2 i1 i2 : FastqEntry)
    (hsheet : sh.samples = pre ++ (nm, q) :: post)
    (hpre : ∀ p ∈ pre, (p.2.matchQuad r1.seq r2.seq i1.seq i2.seq).1 = false)
    (hq : (q.matchQuad r1.seq r2.seq i1.seq i2.seq).1 = true)
    (_hpost : ∃ p ∈ post, (p.2.matchQuad r1.seq r2.seq i1.seq i2.seq).1 = true) :
    (sh.process r1 r2 i1 i2).2
      = [(nm, trimEntry r1 (clipLen q.bc1.sequence), trimEntry r2 (clipLen q.bc2.sequence))]
    ∧ (sh.process r1 r2 i1 i2).1.samples
      = pre ++ (nm, (q.matchQuad r1.seq r2.seq i1.seq i2.seq).2) :: post
    ∧ (sh.process r1 r2 i1 i2).1.undetermined = sh.undetermined := by
  unfold SampleSheet.process
  rw [hsheet, processSamples_first pre post nm q r1 r2 i1 i2 hpre hq]
  simp

theorem spec_C2_witness :
    (⟨[("S1", QuadrupelIndex.mkQ ['-'] ['-'] ['-'] ['-'] 0),
        ("S2", QuadrupelIndex.mkQ ['-'] ['-'] ['-'] ['-'] 0)], false, 0⟩ : SampleSheet).samples
      = [] ++ ("S1", QuadrupelIndex.mkQ ['-'] ['-'] ['-'] ['-'] 0)
          :: [("S2", QuadrupelIndex.mkQ ['-'] ['-'] ['-'] ['-'] 0)]
    ∧ (∀ p ∈ ([] : List (String × QuadrupelIndex)),
        (p.2.matchQuad (⟨"a", ['A'], ['!']⟩ : FastqEntry).seq
          (⟨"b", ['C'], ['!']⟩ : FastqEntry).seq (⟨"c", ['G'], ['!']⟩ : FastqEntry).seq
          (⟨"d", ['T'], ['!']⟩ : FastqEntry).seq).1 = false)
    ∧ ((QuadrupelIndex.mkQ ['-'] ['-'] ['-'] ['-'] 0).matchQuad
          (⟨"a", ['A'], ['!']⟩ : FastqEntry).seq (⟨"b", ['C'], ['!']⟩ : FastqEntry).seq
          (⟨"c", ['G'], ['!']⟩ : FastqEntry).seq (⟨"d", ['T'], ['!']⟩ : FastqEntry).seq).1 = true
    ∧ (∃ p ∈ [("S2", QuadrupelIndex.mkQ ['-'] ['-'] ['-'] ['-'] 0)],
        (p.2.matchQuad (⟨"a", ['A'], ['!']⟩ : FastqEntry).seq
          (⟨"b", ['C'], ['!']⟩ : FastqEntry).seq (⟨"c", ['G'], ['!']⟩ : FastqEntry).seq
          (⟨"d", ['T'], ['!']⟩ : FastqEntry).seq).1 = true)
    ∧ ((⟨[("S1", QuadrupelIndex.mkQ ['-'] ['-'] ['-'] ['-'] 0),
          ("S2", QuadrupelIndex.mkQ ['-'] ['-'] ['-'] ['-'] 0)], false, 0⟩ : SampleSheet).process
            (⟨"a", ['A'], ['!']⟩ : FastqEntry) (⟨"b", ['C'], ['!']⟩ : FastqEntry)
            (⟨"c", ['G'], ['!']⟩ : FastqEntry) (⟨"d", ['T'], ['!']⟩ : FastqEntry)).2
        = [("S1",
            trimEntry (⟨"a", ['A'], ['!']⟩ : FastqEntry)
              (clipLen (QuadrupelIndex.mkQ ['-'] ['-'] ['-'] ['-'] 0).bc1.sequence),
            trimEntry (⟨"b", ['C'], ['!']⟩ : FastqEntry)
              (clipLen (QuadrupelIndex.mkQ ['-'] ['-'] ['-'] ['-'] 0).bc2.sequence))] := by
  refine ⟨by decide, by decide, by decide, ⟨_, List.mem_cons_self _ _, by decide⟩, ?_⟩
  exact (spec_C2 _ [] [("S2", QuadrupelIndex.mkQ ['-'] ['-'] ['-'] ['-'] 0)] "S1"
    (QuadrupelIndex.mkQ ['-'] ['-'] ['-'] ['-'] 0) _ _ _ _ (by decide) (by decide) (by decide)
    ⟨_, List.mem_cons_self _ _, by decide⟩).1

/-- C4: a record pair routed to a sample is emitted with the leading
barcode-length prefix removed from both reads' sequence and quality (0
characters for a `-` barcode): the emitted strings are the drops, their
lengths are the original lengths minus the clip lengths, and the removed
characters are exactly the original prefix. -/
theorem spec_C4 (sh : SampleSheet) (pre post : List (String × QuadrupelIndex))
    (nm : String) (q : QuadrupelIndex) (r1 r2 i1 i2 : FastqEntry)
    (hsheet : sh.samples = pre ++ (nm, q) :: post)
    (hpre : ∀ p ∈ pre, (p.2.matchQuad r1.seq r2.seq i1.seq i2.seq).1 = false)
    (hq : (q.matchQuad r1.seq r2.seq i1.seq i2.seq).1 = true) :
    ∃ e1 e2, (sh.process r1 r2 i1 i2).2 = [(nm, e1, e2)]
      ∧ e1.seq = r1.seq.drop (clipLen q.bc1.sequence)
      ∧ e1.quali = r1.quali.drop (clipLen q.bc1.sequence)
      ∧ e1.seq.length = r1.seq.length - clipLen q.bc1.sequence
      ∧ e1.quali.length = r1.quali.length - clipLen q.bc1.sequence
      ∧ r1.seq.take (clipLen q.bc1.sequence) ++ e1.seq = r1.seq
      ∧ r1.quali.take (clipLen q.bc1.sequence) ++ e1.quali = r1.quali
      ∧ e2.seq = r2.seq.drop (clipLen q.bc2.sequence)
      ∧ e2.quali = r2.quali.drop (clipLen q.bc2.sequence)
      ∧ e2.seq.length = r2.seq.length - clipLen q.bc2.sequence
      ∧ e2.quali.length = r2.quali.length - clipLen q.bc2.sequence
      ∧ r2.seq.take (clipLen q.bc2.sequence) ++ e2.seq = r2.seq
      ∧ r2.quali.take (clipLen q.bc2.sequence) ++ e2.quali = r2.quali
      ∧ (q.bc1.sequence = ['-'] → clipLen q.bc1.sequence = 0)
      ∧ (q.bc1.sequence ≠ ['-'] → clipLen q.bc1.sequence = q.bc1.sequence.length)
      ∧ (q.bc2.sequence = ['-'] → clipLen q.bc2.sequence = 0)
      ∧ (q.bc2.sequence ≠ ['-'] → clipLen q.bc2.sequence = q.bc2.sequence.length) := by
  refine ⟨trimEntry r1 (clipLen q.bc1.sequence), trimEntry r2 (clipLen q.bc2.sequence),
    ?_, by simp [trimEntry], by simp [trimEntry], by simp [trimEntry],
    by simp [trimEntry], by simp [trimEntry], by simp [trimEntry],
    by simp [trimEntry], by simp [trimEntry], by simp [trimEntry],
    by simp [trimEntry], by simp [trimEntry], by simp [trimEntry],
    fun h => by simp [clipLen, h], fun h => by simp [clipLen, h],
    fun h => by simp [clipLen, h], fun h => by simp [clipLen, h]⟩
  unfold SampleSheet.process
  rw [hsheet, processSamples_first pre post nm q r1 r2 i1 i2 hpre hq]

theorem spec_C4_witness :
    (⟨[("S1", QuadrupelIndex.mkQ ['A'] ['C'] ['G','G'] ['T'] 0)], false, 0⟩
        : SampleSheet).samples
      = [] ++ ("S1", QuadrupelIndex.mkQ ['A'] ['C'] ['G','G'] ['T'] 0) :: []
    ∧ (∀ p ∈ ([] : List (String × QuadrupelIndex)),
        (p.2.matchQuad (⟨"a", ['G','G','A','C'], ['!','!','!','!']⟩ : FastqEntry).seq
          (⟨"b", ['T','C','C'], ['!','!','!']⟩ : FastqEntry).seq
          (⟨"c", ['A'], ['!']⟩ : FastqEntry).seq
          (⟨"d", ['C'], ['!']⟩ : FastqEntry).seq).1 = false)
    ∧ ((QuadrupelIndex.mkQ ['A'] ['C'] ['G','G'] ['T'] 0).matchQuad
        (⟨"a", ['G','G','A','C'], ['!','!','!','!']⟩ : FastqEntry).seq
        (⟨"b", ['T','C','C'], ['!','!','!']⟩ : FastqEntry).seq
        (⟨"c", ['A'], ['!']⟩ : FastqEntry).seq
        (⟨"d", ['C'], ['!']⟩ : FastqEntry).seq).1 = true
    ∧ ∃ e1 e2,
        ((⟨[("S1", QuadrupelIndex.mkQ ['A'] ['C'] ['G','G'] ['T'] 0)], false, 0⟩
            : SampleSheet).process
          (⟨"a", ['G','G','A','C'], ['!','!','!','!']⟩ : FastqEntry)
          (⟨"b", ['T','C','C'], ['!','!','!']⟩ : FastqEntry)
          (⟨"c", ['A'], ['!']⟩ : FastqEntry)
          (⟨"d", ['C'], ['!']⟩ : FastqEntry)).2 = [("S1", e1, e2)]
        ∧ e1.seq = ['A','C'] ∧ e1.quali = ['!','!']
        ∧ e2.seq = ['C','C'] ∧ e2.quali = ['!','!'] := by
  refine ⟨by decide, by decide, by decide, ?_⟩
  obtain ⟨e1, e2, hw, h1, h2, -, -, -, -, h3, h4, -⟩ :=
    spec_C4 (⟨[("S1", QuadrupelIndex.mkQ ['A'] ['C'] ['G','G'] ['T'] 0)], false, 0⟩
        : SampleSheet) [] [] "S1" (QuadrupelIndex.mkQ ['A'] ['C'] ['G','G'] ['T'] 0)
      (⟨"a", ['G','G','A','C'], ['!','!','!','!']⟩ : FastqEntry)
      (⟨"b", ['T','C','C'], ['!','!','!']⟩ : FastqEntry)
      (⟨"c", ['A'], ['!']⟩ : FastqEntry)
      (⟨"d", ['C'], ['!']⟩ : FastqEntry)
      (by decide) (by decide) (by decide)
  exact ⟨e1, e2, hw, by rw [h1]; decide, by rw [h2]; decide,
    by rw [h3]; decide, by rw [h4]; decide⟩

/-- C7: when no sample matches, `process` increments the undetermined
counter by one, leaves every sample's state and the records untouched, and
writes the untrimmed pair to the undetermined sink exactly when the
undetermined bucket is enabled. -/
theorem spec_C7 (sh : SampleSheet) (r1 r2 i1 i2 : FastqEntry)
    (hall : ∀ p ∈ sh.samples, (p.2.matchQuad r1.seq r2.seq i1.seq i2.seq).1 = false) :
    (sh.process r1 r2 i1 i2).1.undetermined = sh.undetermined + 1
    ∧ (sh.process r1 r2 i1 i2).1.samples = sh.samples
    ∧ (sh.process r1 r2 i1 i2).2
      = (if sh.withUndetermined then [("Undetermined", r1, r2)] else []) := by
  unfold SampleSheet.process
  rw [processSamples_all_false sh.samples r1 r2 i1 i2 hall]
  cases h : sh.withUndetermined <;> simp [h]

theorem spec_C7_witness :
    (∀ p ∈ (⟨[("S1", QuadrupelIndex.mkQ ['A'] ['A'] ['-'] ['-'] 0)], true, 5⟩
        : SampleSheet).samples,
      (p.2.matchQuad (⟨"a", ['G'], ['!']⟩ : FastqEntry).seq
        (⟨"b", ['G'], ['!']⟩ : FastqEntry).seq (⟨"c", ['C'], ['!']⟩ : FastqEntry).seq
        (⟨"d", ['C'], ['!']⟩ : FastqEntry).seq).1 = false)
    ∧ (((⟨[("S1", QuadrupelIndex.mkQ ['A'] ['A'] ['-'] ['-'] 0)], true, 5⟩
          : SampleSheet).process (⟨"a", ['G'], ['!']⟩ : FastqEntry)
            (⟨"b", ['G'], ['!']⟩ : FastqEntry) (⟨"c", ['C'], ['!']⟩ : FastqEntry)
            (⟨"d", ['C'], ['!']⟩ : FastqEntry)).1.undetermined
        = (⟨[("S1", QuadrupelIndex.mkQ ['A'] ['A'] ['-'] ['-'] 0)], true, 5⟩
            : SampleSheet).undetermined + 1
      ∧ ((⟨[("S1", QuadrupelIndex.mkQ ['A'] ['A'] ['-'] ['-'] 0)], true, 5⟩
          : SampleSheet).process (⟨"a", ['G'], ['!']⟩ : FastqEntry)
            (⟨"b", ['G'], ['!']⟩ : FastqEntry) (⟨"c", ['C'], ['!']⟩ : FastqEntry)
            (⟨"d", ['C'], ['!']⟩ : FastqEntry)).1.samples
        = (⟨[("S1", QuadrupelIndex.mkQ ['A'] ['A'] ['-'] ['-'] 0)], true, 5⟩
            : SampleSheet).samples
      ∧ ((⟨[("S1", QuadrupelIndex.mkQ ['A'] ['A'] ['-'] ['-'] 0)], true, 5⟩
          : SampleSheet).process (⟨"a", ['G'], ['!']⟩ : FastqEntry)
            (⟨"b", ['G'], ['!']⟩ : FastqEntry) (⟨"c", ['C'], ['!']⟩ : FastqEntry)
            (⟨"d", ['C'], ['!']⟩ : FastqEntry)).2
        = (if (⟨[("S1", QuadrupelIndex.mkQ ['A'] ['A'] ['-'] ['-'] 0)], true, 5⟩
              : SampleSheet).withUndetermined then
            [("Undetermined", (⟨"a", ['G'], ['!']⟩ : FastqEntry),
              (⟨"b", ['G'], ['!']⟩ : FastqEntry))]
          else [])) :=
  ⟨by decide, spec_C7 _ _ _ _ _ (by decide)⟩

lemma sumVals_bumpKey (hits : List (List Char × Nat)) (k : List Char) :
    sumVals (bumpKey hits k) = sumVals hits + 1 := by
  induction hits with
  | nil => rfl
  | cons p rest ih =>
    obtain ⟨k', v⟩ := p
    by_cases h : k' = k
    · simp [bumpKey, h, sumVals]
      omega
    · simp [bumpKey, h, sumVals] at ih ⊢
      omega

lemma acceptedCount_record (q : QuadrupelIndex) (r1 r2 i1 i2 : List Char)
    (h : (q.matchQuad r1 r2 i1 i2).1 = true) :
    acceptedCount (q.matchQuad r1 r2 i1 i2).2 = acceptedCount q + 1 := by
  rw [matchQuad_snd_of_true q r1 r2 i1 i2 h]
  simp only [acceptedCount, Index.recordHit]
  exact sumVals_bumpKey _ _

lemma processSamples_acceptedSum (ss : List (String × QuadrupelIndex))
    (r1 r2 i1 i2 : FastqEntry) :
    acceptedSum (processSamples ss r1 r2 i1 i2).1
      = acceptedSum ss
        + (if (processSamples ss r1 r2 i1 i2).2.isSome then 1 else 0) := by
  induction ss with
  | nil => simp [processSamples]
  | cons p rest ih =>
    obtain ⟨pn, pq⟩ := p
    cases hm : (pq.matchQuad r1.seq r2.seq i1.seq i2.seq).1 with
    | true =>
      have hrec := acceptedCount_record pq r1.seq r2.seq i1.seq i2.seq hm
      unfold processSamples
      simp [hm, acceptedSum, hrec]
      omega
    | false =>
      have hsnd := matchQuad_snd_of_false pq r1.seq r2.seq i1.seq i2.seq hm
      unfold processSamples
      cases hs : (processSamples rest r1 r2 i1 i2).2 with
      | none =>
        simp [hm, hsnd, acceptedSum, hs] at ih ⊢
        omega
      | some out =>
        simp [hm, hsnd, acceptedSum, hs] at ih ⊢
        omega

lemma process_step (sh : SampleSheet) (r1 r2 i1 i2 : FastqEntry) :
    ((sh.process r1 r2 i1 i2).1.undetermined = sh.undetermined + 1
      ∧ acceptedSum (sh.process r1 r2 i1 i2).1.samples = acceptedSum sh.samples)
    ∨ ((sh.process r1 r2 i1 i2).1.undetermined = sh.undetermined
      ∧ acceptedSum (sh.process r1 r2 i1 i2).1.samples
          = acceptedSum sh.samples + 1) := by
  have hacc := processSamples_acceptedSum sh.samples r1 r2 i1 i2
  unfold SampleSheet.process
  cases hs : (processSamples sh.samples r1 r2 i1 i2).2 with
  | some out =>
    right
    simp [hs] at hacc ⊢
    exact hacc
  | none =>
    left
    cases hw : sh.withUndetermined <;> simp [hs, hw] at hacc ⊢ <;> exact hacc

lemma process_total (sh : SampleSheet) (r1 r2 i1 i2 : FastqEntry) :
    (sh.process r1 r2 i1 i2).1.undetermined
      + acceptedSum (sh.process r1 r2 i1 i2).1.samples
      = sh.undetermined + acceptedSum sh.samples + 1 := by
  rcases process_step sh r1 r2 i1 i2 with ⟨h1, h2⟩ | ⟨h1, h2⟩ <;> omega

lemma runLoop_total (quads : List (FastqEntry × FastqEntry × FastqEntry × FastqEntry)) :
    ∀ (sh : SampleSheet) (nr : Int) (ea : Option Int),
      (runLoop sh quads nr ea).undetermined
        + acceptedSum (runLoop sh quads nr ea).samples
        = sh.undetermined + acceptedSum sh.samples + loopCount quads nr ea := by
  induction quads with
  | nil =>
    intro sh nr ea
    simp [runLoop, loopCount]
  | cons qd rest ih =>
    intro sh nr ea
    have hstep := process_total sh qd.1 qd.2.1 qd.2.2.1 qd.2.2.2
    cases ea with
    | none =>
      have := ih ((sh.process qd.1 qd.2.1 qd.2.2.1 qd.2.2.2).1) (nr + 1) none
      simp only [runLoop, loopCount]
      omega
    | some k =>
      by_cases hk : nr + 1 > k
      · simp only [runLoop, loopCount, if_pos hk]
        omega
      · have := ih ((sh.process qd.1 qd.2.1 qd.2.2.1 qd.2.2.2).1) (nr + 1) (some k)
        simp only [runLoop, loopCount, if_neg hk]
        omega

lemma buildSamples_acceptedSum (rows : List SheetRow) (mm : Nat)
    (ss : List (String × QuadrupelIndex)) (h : buildSamples rows mm = some ss) :
    acceptedSum ss = 0 := by
  induction rows generalizing ss with
  | nil =>
    simp [buildSamples] at h
    subst h
    rfl
  | cons r rest ih =>
    unfold buildSamples at h
    by_cases hc : ((r.i1 ++ r.i2 ++ r.bc1 ++ r.bc2).all legalChar) = true
    · rw [if_pos hc] at h
      cases hrec : buildSamples rest mm with
      | none => rw [hrec] at h; simp at h
      | some l =>
        rw [hrec] at h
        simp only [Option.map_some'] at h
        have hl := ih l hrec
        rw [← Option.some.injEq] at h ⊢
        cases h
        simp [acceptedSum, acceptedCount, QuadrupelIndex.mkQ, sumVals] at hl ⊢
        exact hl
    · rw [if_neg hc] at h
      simp at h

/-- C3: for any run from a freshly built sheet (any streams, any cap), the
undetermined counter plus each sample's accepted count (sum of its index-1
hit-table occurrence counts) equals the number of quadruples the loop
processed; and every single `process` call grows exactly one of the two
terms by exactly one. -/
theorem spec_C3 (rows : List SheetRow) (mm : Nat) (withU : Bool)
    (ss : List (String × QuadrupelIndex)) (hbuild : buildSamples rows mm = some ss)
    (s1 s2 s3 s4 : List FastqEntry) (ea : Option Int) :
    ((mainRun ⟨ss, withU, 0⟩ s1 s2 s3 s4 ea).undetermined
      + acceptedSum (mainRun ⟨ss, withU, 0⟩ s1 s2 s3 s4 ea).samples
      = totalProcessed s1 s2 s3 s4 ea)
    ∧ ∀ (sh : SampleSheet) (r1 r2 i1 i2 : FastqEntry),
        ((sh.process r1 r2 i1 i2).1.undetermined = sh.undetermined + 1
          ∧ acceptedSum (sh.process r1 r2 i1 i2).1.samples = acceptedSum sh.samples)
        ∨ ((sh.process r1 r2 i1 i2).1.undetermined = sh.undetermined
          ∧ acceptedSum (sh.process r1 r2 i1 i2).1.samples
              = acceptedSum sh.samples + 1) := by
  constructor
  · have h0 := buildSamples_acceptedSum rows mm ss hbuild
    have hrun := runLoop_total (zip4 s1 s2 s3 s4) ⟨ss, withU, 0⟩ 1 ea
    unfold mainRun totalProcessed
    simp only at hrun
    omega
  · exact fun sh r1 r2 i1 i2 => process_step sh r1 r2 i1 i2

theorem spec_C3_witness :
    buildSamples [⟨"S1", ['A'], ['C'], ['-'], ['-']⟩] 0
      = some [("S1", QuadrupelIndex.mkQ ['A'] ['C'] ['-'] ['-'] 0)]
    ∧ ((mainRun ⟨[("S1", QuadrupelIndex.mkQ ['A'] ['C'] ['-'] ['-'] 0)], true, 0⟩
          [⟨"r1a", ['G','G'], ['!','!']⟩, ⟨"r1b", ['T','T'], ['!','!']⟩]
          [⟨"r2a", ['G','G'], ['!','!']⟩, ⟨"r2b", ['T','T'], ['!','!']⟩]
          [⟨"i1a", ['A'], ['!']⟩, ⟨"i1b", ['G'], ['!']⟩]
          [⟨"i2a", ['C'], ['!']⟩, ⟨"i2b", ['C'], ['!']⟩] (some 5)).undetermined
        + acceptedSum (mainRun ⟨[("S1", QuadrupelIndex.mkQ ['A'] ['C'] ['-'] ['-'] 0)], true, 0⟩
          [⟨"r1a", ['G','G'], ['!','!']⟩, ⟨"r1b", ['T','T'], ['!','!']⟩]
          [⟨"r2a", ['G','G'], ['!','!']⟩, ⟨"r2b", ['T','T'], ['!','!']⟩]
          [⟨"i1a", ['A'], ['!']⟩, ⟨"i1b", ['G'], ['!']⟩]
          [⟨"i2a", ['C'], ['!']⟩, ⟨"i2b", ['C'], ['!']⟩] (some 5)).samples
        = totalProcessed
          [⟨"r1a", ['G','G'], ['!','!']⟩, ⟨"r1b", ['T','T'], ['!','!']⟩]
          [⟨"r2a", ['G','G'], ['!','!']⟩, ⟨"r2b", ['T','T'], ['!','!']⟩]
          [⟨"i1a", ['A'], ['!']⟩, ⟨"i1b", ['G'], ['!']⟩]
          [⟨"i2a", ['C'], ['!']⟩, ⟨"i2b", ['C'], ['!']⟩] (some 5)) :=
  ⟨by decide,
    (spec_C3 [⟨"S1", ['A'], ['C'], ['-'], ['-']⟩] 0 true
      [("S1", QuadrupelIndex.mkQ ['A'] ['C'] ['-'] ['-'] 0)] (by decide)
      [⟨"r1a", ['G','G'], ['!','!']⟩, ⟨"r1b", ['T','T'], ['!','!']⟩]
      [⟨"r2a", ['G','G'], ['!','!']⟩, ⟨"r2b", ['T','T'], ['!','!']⟩]
      [⟨"i1a", ['A'], ['!']⟩, ⟨"i1b", ['G'], ['!']⟩]
      [⟨"i2a", ['C'], ['!']⟩, ⟨"i2b", ['C'], ['!']⟩] (some 5)).1⟩

lemma bumpKey_keys (hits : List (List Char × Nat)) (k k' : List Char)
    (h : k' ∈ (bumpKey hits k).map Prod.fst) :
    k' = k ∨ k' ∈ hits.map Prod.fst := by
  induction hits with
  | nil =>
    simp [bumpKey] at h
    exact Or.inl h
  | cons p rest ih =>
    obtain ⟨pk, pv⟩ := p
    by_cases hpk : pk = k
    · simp [bumpKey, hpk] at h
      rcases h with h | h
      · exact Or.inl h
      · exact Or.inr (by simp [h])
    · simp [bumpKey, hpk] at h
      rcases h with h | h
      · exact Or.inr (by simp [h])
      · rcases ih (by simpa using h) with h' | h'
        · exact Or.inl h'
        · exact Or.inr (by simp; right; simpa using h')

/-- C8 (corrected): hit-table keys are the recorded queries clipped to the
fixed pattern length, so every key is at most pattern-length long, and is
exactly pattern-length long provided every recorded query was at least
pattern-length long — a shorter query yields a shorter key. -/
theorem spec_C8_amended (idx : Index) (seqs : List (List Char))
    (h0 : ∀ k ∈ idx.hits.map Prod.fst, k.length ≤ idx.sequence.length) :
    ((seqs.foldl Index.recordHit idx).sequence = idx.sequence)
    ∧ (∀ k ∈ (seqs.foldl Index.recordHit idx).hits.map Prod.fst,
        k.length ≤ idx.sequence.length)
    ∧ ((∀ s ∈ seqs, idx.sequence.length ≤ s.length) →
        (∀ k ∈ idx.hits.map Prod.fst, k.length = idx.sequence.length) →
        ∀ k ∈ (seqs.foldl Index.recordHit idx).hits.map Prod.fst,
          k.length = idx.sequence.length) := by
  induction seqs generalizing idx with
  | nil =>
    exact ⟨rfl, h0, fun _ hexact => hexact⟩
  | cons s rest ih =>
    have hseq : (idx.recordHit s).sequence = idx.sequence := rfl
    have h0' : ∀ k ∈ (idx.recordHit s).hits.map Prod.fst,
        k.length ≤ (idx.recordHit s).sequence.length := by
      intro k hk
      rcases bumpKey_keys idx.hits (s.take idx.sequence.length) k hk with h | h
      · subst h
        rw [hseq, List.length_take]
        exact Nat.min_le_left _ _
      · rw [hseq]
        exact h0 k h
    obtain ⟨ih1, ih2, ih3⟩ := ih (idx.recordHit s) h0'
    refine ⟨?_, ?_, ?_⟩
    · rw [List.foldl_cons, ih1, hseq]
    · intro k hk
      rw [List.foldl_cons] at hk
      have := ih2 k hk
      rwa [hseq] at this
    · intro hlen hexact k hk
      rw [List.foldl_cons] at hk
      have hexact' : ∀ k' ∈ (idx.recordHit s).hits.map Prod.fst,
          k'.length = (idx.recordHit s).sequence.length := by
        intro k' hk'
        rcases bumpKey_keys idx.hits (s.take idx.sequence.length) k' hk' with h | h
        · subst h
          rw [hseq, List.length_take]
          exact Nat.min_eq_left (hlen s (List.mem_cons_self _ _))
        · rw [hseq]
          exact hexact k' h
      have hlen' : ∀ x ∈ rest, (idx.recordHit s).sequence.length ≤ x.length := by
        intro x hx
        rw [hseq]
        exact hlen x (List.mem_cons_of_mem _ hx)
      have := ih3 hlen' hexact' k hk
      rwa [hseq] at this

theorem spec_C8_amended_witness :
    (∀ k ∈ (⟨['A','A'], 1, []⟩ : Index).hits.map Prod.fst,
        k.length ≤ (⟨['A','A'], 1, []⟩ : Index).sequence.length)
    ∧ ((([['C','G','T']].foldl Index.recordHit (⟨['A','A'], 1, []⟩ : Index)).sequence
          = (⟨['A','A'], 1, []⟩ : Index).sequence)
      ∧ (∀ k ∈ ([['C','G','T']].foldl Index.recordHit
            (⟨['A','A'], 1, []⟩ : Index)).hits.map Prod.fst,
          k.length ≤ (⟨['A','A'], 1, []⟩ : Index).sequence.length)
      ∧ ((∀ s ∈ [['C','G','T']], (⟨['A','A'], 1, []⟩ : Index).sequence.length ≤ s.length) →
          (∀ k ∈ (⟨['A','A'], 1, []⟩ : Index).hits.map Prod.fst,
            k.length = (⟨['A','A'], 1, []⟩ : Index).sequence.length) →
          ∀ k ∈ ([['C','G','T']].foldl Index.recordHit
              (⟨['A','A'], 1, []⟩ : Index)).hits.map Prod.fst,
            k.length = (⟨['A','A'], 1, []⟩ : Index).sequence.length)) :=
  ⟨by decide, spec_C8_amended (⟨['A','A'], 1, []⟩ : Index) [['C','G','T']] (by decide)⟩

/-- C8 counterexample: recording the single-character query `A` on a fresh
signature with pattern `AAAA` stores the key `A` of length 1, not 4. -/
theorem spec_C8_cex :
    ([['A']].foldl Index.recordHit (⟨['A','A','A','A'], 1, []⟩ : Index)).hits.map Prod.fst
      = [['A']]
    ∧ ¬ (∀ k ∈ ([['A']].foldl Index.recordHit
          (⟨['A','A','A','A'], 1, []⟩ : Index)).hits.map Prod.fst,
        k.length = (⟨['A','A','A','A'], 1, []⟩ : Index).sequence.length) := by
  decide

/-- C9: construction of the sample collection from parsed sheet rows fails
exactly when some character of some row's four sequence fields lies outside
`ACTGN-`; on failure no sheet value exists, so no record can be routed. -/
theorem spec_C9 (rows : List SheetRow) (mm : Nat) :
    buildSamples rows mm = none ↔
      ∃ r ∈ rows, ∃ c ∈ r.i1 ++ r.i2 ++ r.bc1 ++ r.bc2, legalChar c = false := by
  induction rows with
  | nil => simp [buildSamples]
  | cons r rest ih =>
    cases hc : (r.i1 ++ r.i2 ++ r.bc1 ++ r.bc2).all legalChar with
    | true =>
      have hgood : ∀ c ∈ r.i1 ++ r.i2 ++ r.bc1 ++ r.bc2, legalChar c = true :=
        List.all_eq_true.mp hc
      cases hrec : buildSamples rest mm with
      | none =>
        have hl : buildSamples (r :: rest) mm = none := by
          unfold buildSamples
          rw [hc, hrec]
          rfl
        rw [hl]
        constructor
        · intro _
          obtain ⟨r', hr', c, hcmem, hbad⟩ := ih.mp hrec
          exact ⟨r', List.mem_cons_of_mem _ hr', c, hcmem, hbad⟩
        · intro _
          rfl
      | some l =>
        have hl : buildSamples (r :: rest) mm
            = some ((r.name, QuadrupelIndex.mkQ r.i1 r.i2 r.bc1 r.bc2 mm) :: l) := by
          unfold buildSamples
          rw [hc, hrec]
          rfl
        rw [hl]
        constructor
        · intro h
          exact absurd h (by simp)
        · rintro ⟨r', hr', c, hcmem, hbad⟩
          exfalso
          rcases List.mem_cons.mp hr' with h | h
          · subst h
            rw [hgood c hcmem] at hbad
            exact absurd hbad (by simp)
          · have hnone : buildSamples rest mm = none := ih.mpr ⟨r', h, c, hcmem, hbad⟩
            rw [hrec] at hnone
            exact absurd hnone (by simp)
    | false =>
      have hbad : ∃ c ∈ r.i1 ++ r.i2 ++ r.bc1 ++ r.bc2, legalChar c = false := by
        simp only [List.all_eq_false] at hc
        obtain ⟨c, hm, hf⟩ := hc
        exact ⟨c, hm, by simpa using hf⟩
      have hl : buildSamples (r :: rest) mm = none := by
        unfold buildSamples
        rw [hc]
        rfl
      rw [hl]
      constructor
      · intro _
        obtain ⟨c, hcmem, hc'⟩ := hbad
        exact ⟨r, List.mem_cons_self _ _, c, hcmem, hc'⟩
      · intro _
        rfl

end BarcodeDemulti
